import Mathlib

/-!
Verification development for the check/vendor reconciliation core of
`src/app.py` (repository `Check-program-test`).

The embedded code is:
* `normalize_check_number` (app.py lines 203-225), including faithful models
  of the two regular expressions it uses;
* the reconciliation pipeline of `CheckVendorUpdater.process_updates`
  (app.py lines 687-742) together with `CheckVendorUpdater._required_mapping`
  (lines 674-685), with the mutable GUI fields (`self.duplicates`,
  `self.updated_df`, `self.unmatched_df`) passed as explicit state.

Modelling conventions:
* a pandas cell of the `dtype=object` tables is `Cell`: `NaN`/`None` is
  `Cell.null`, a string is `Cell.str`, a boolean (only produced internally
  for the `_is_match` helper column) is `Cell.bool`;
* Python `str` values are Lean `String`s; `str.strip()`, `\s`, `\d` and
  `re.IGNORECASE` are modelled over their ASCII meaning (`\x0b`, `\x0c`
  included for whitespace), which covers every value the claims mention;
* a pandas DataFrame is a `Table`: a list of column names plus a list of
  rows, each row a list of cells aligned with the column names.
-/

set_option autoImplicit false

namespace CheckApp

/-- ASCII model of Python's whitespace class (`str.strip`, regex `\s`):
space, tab, newline, carriage return, vertical tab, form feed. -/
def isSpaceC (c : Char) : Bool :=
  c = ' ' || c = '\t' || c = '\n' || c = '\r' || c = '\x0b' || c = '\x0c'

/-- ASCII model of Python's regex digit class `\d`. -/
def isDigitC (c : Char) : Bool :=
  '0' ≤ c && c ≤ '9'

/-- Separator class `[-:#]` of the anchored pattern in app.py line 217. -/
def isSepC (c : Char) : Bool :=
  c = '-' || c = ':' || c = '#'

/-- ASCII lower-casing, the effect of `re.IGNORECASE` on the pattern's
letters (the pattern itself is lower case). -/
def toLowerC (c : Char) : Char :=
  if 'A' ≤ c && c ≤ 'Z' then Char.ofNat (c.toNat + 32) else c

/-- Python `str.strip()` on the character list of a string. -/
def stripL (l : List Char) : List Char :=
  ((l.dropWhile isSpaceC).reverse.dropWhile isSpaceC).reverse

/-- Python `str.strip()`. -/
def pyStrip (s : String) : String :=
  String.mk (stripL s.data)

/-- A cell of a `dtype=object` pandas table. -/
inductive Cell where
  | null
  | str (s : String)
  | bool (b : Bool)
deriving DecidableEq, Repr

/-- Python `str(value)` on a cell (`str(nan) = "nan"`, `str(True) = "True"`);
this is also what `Series.astype(str)` applies elementwise. -/
def pyStr : Cell → String
  | .null => "nan"
  | .str s => s
  | .bool b => if b then "True" else "False"

/-- `Series.fillna("").astype(str)` applied to one cell. -/
def pyFillnaStr : Cell → String
  | .null => ""
  | c => pyStr c

/-- `pd.isna` on a cell. -/
def pdIsna : Cell → Bool
  | .null => true
  | _ => false

/-- `CHECK_TEXT_PREFIXES` of app.py line 49: the check-indicator words of the
anchored pattern, in the alternation order of the compiled regex. -/
def CHECK_TEXT_WORDS : List (List Char) :=
  ["check".data, "cheque".data, "chk".data]

/-- Case-insensitive literal word match at the front of the text; returns the
remaining text on success (the word is given in lower case). -/
def matchWordCI : List Char → List Char → Option (List Char)
  | [], rest => some rest
  | _ :: _, [] => none
  | w :: ws, c :: cs => if toLowerC c = w then matchWordCI ws cs else none

/-- Tail `\s*[-:#]*\s*(\d+)\s*$` of the anchored pattern, after the
check-indicator word. The three character classes are pairwise disjoint, so
the greedy left-to-right parse (maximal run for each starred class, then a
maximal digit run, then only whitespace may remain) matches exactly the
strings the backtracking regex engine accepts, and captures the same digits. -/
def matchTail (cs : List Char) : Option (List Char) :=
  let r1 := cs.dropWhile isSpaceC
  let r2 := r1.dropWhile isSepC
  let r3 := r2.dropWhile isSpaceC
  let ds := r3.takeWhile isDigitC
  let r4 := r3.dropWhile isDigitC
  if ds = [] then none
  else if r4.all isSpaceC then some ds
  else none

/-- Alternation over the check-indicator words: the regex tries each word in
order and backtracks to the next alternative when the rest of the pattern
fails. (The three words are also mutually exclusive at the front of a text.) -/
def tryWords : List (List Char) → List Char → Option (List Char)
  | [], _ => none
  | w :: ws, cs =>
    match matchWordCI w cs with
    | some rest =>
      match matchTail rest with
      | some ds => some ds
      | none => tryWords ws cs
    | none => tryWords ws cs

/-- `re.match` of the anchored pattern
`^\s*(?:check|cheque|chk)\s*[-:#]*\s*(\d+)\s*$` with `re.IGNORECASE`
(app.py lines 217-218), returning the captured digit group. As the input is
already stripped when the pattern is applied, `$` coincides with
end-of-string. -/
def anchoredDigits (cs : List Char) : Option (List Char) :=
  tryWords CHECK_TEXT_WORDS (cs.dropWhile isSpaceC)

/-- `re.search(r"(\d+)", ...)` (app.py line 221): the first maximal digit run
anywhere in the text. -/
def firstDigitRun : List Char → Option (List Char)
  | [] => none
  | c :: cs =>
    if isDigitC c then some (c :: cs.takeWhile isDigitC) else firstDigitRun cs

/-- Python `text.endswith(".0")`. -/
def endsWithD0 (l : List Char) : Bool :=
  match l.reverse with
  | '0' :: '.' :: _ => true
  | _ => false

/-- `normalize_check_number` (app.py lines 203-225). The Python defaults are
`normalize_mode = True`, `extract_from_text_mode = True`; callers in
`process_updates` always pass both explicitly. `cleaned[:-2]` drops the two
trailing characters. -/
def normalize_check_number (value : Cell) (normalize_mode : Bool)
    (extract_from_text_mode : Bool) : String :=
  if pdIsna value then ""
  else
    let text := pyStrip (pyStr value)
    if text = "" then ""
    else if !normalize_mode then text
    else
      let cleaned0 := pyStrip text
      let cleaned :=
        if endsWithD0 cleaned0.data then
          pyStrip (String.mk cleaned0.data.dropLast.dropLast)
        else cleaned0
      if extract_from_text_mode then
        match anchoredDigits cleaned.data with
        | some ds => String.mk ds
        | none =>
          match firstDigitRun cleaned.data with
          | some ds => String.mk ds
          | none => cleaned
      else cleaned

/-- An in-memory pandas DataFrame of `dtype=object`: ordered column names and
rows of cells; every row of a loaded table has exactly one cell per column. -/
structure Table where
  cols : List String
  rows : List (List Cell)
deriving DecidableEq, Repr

/-- Every row has one cell per column (the table invariant of §3 of the spec,
guaranteed by the CSV/Excel readers). -/
def Table.wf (t : Table) : Prop :=
  ∀ r ∈ t.rows, r.length = t.cols.length

/-- `df[c]`: the column named `c`, or `none` (pandas `KeyError`) when no
column bears that name. Out-of-range access inside an aligned table never
happens; `getD` with `Cell.null` keeps the function total. -/
def getColumn (t : Table) (c : String) : Option (List Cell) :=
  match t.cols.findIdx? (· == c) with
  | none => none
  | some i => some (t.rows.map (fun r => r.getD i Cell.null))

/-- `df[c] = vals`: overwrite the column in place when it exists, else append
it as a new last column (pandas assignment semantics). `vals` always has one
value per row at the call sites. -/
def setColumn (t : Table) (c : String) (vals : List Cell) : Table :=
  match t.cols.findIdx? (· == c) with
  | some i => { cols := t.cols, rows := t.rows.zipWith (fun r v => r.set i v) vals }
  | none => { cols := t.cols ++ [c], rows := t.rows.zipWith (fun r v => r ++ [v]) vals }

/-- `df.loc[mask, c] = vals` (app.py line 711): write `vals` into column `c`
on the rows where `mask` holds. At the call site column `c` exists (it was
read at line 708), so the `none` branch is unreachable. -/
def maskedSet (t : Table) (c : String) (mask : List Bool) (vals : List Cell) : Table :=
  match t.cols.findIdx? (· == c) with
  | some i =>
      { cols := t.cols
        rows := (t.rows.zip (mask.zip vals)).map
          (fun p => if p.2.1 then p.1.set i p.2.2 else p.1) }
  | none => t

/-- `df.loc[keep, :]`: the rows where the boolean series `keep` holds. -/
def filterByMask (t : Table) (keep : List Bool) : Table :=
  { cols := t.cols
    rows := ((t.rows.zip keep).filter (fun p => p.2)).map (fun p => p.1) }

/-- `df[[names]]`: projection onto the listed columns. At the call site both
listed columns exist, so the `none` branch is unreachable. -/
def projectCols (t : Table) (names : List String) : Table :=
  { cols := names
    rows := t.rows.map (fun r => names.map (fun c =>
      match t.cols.findIdx? (· == c) with
      | some i => r.getD i Cell.null
      | none => Cell.null)) }

/-- `df.drop(columns=names)`: remove every column whose name is listed. -/
def dropCols (t : Table) (names : List String) : Table :=
  { cols := t.cols.filter (fun c => !(names.contains c))
    rows := t.rows.map (fun r =>
      (((t.cols.zip r).filter (fun p => !(names.contains p.1))).map (fun p => p.2))) }

/-- Lines 699-700 and 705 build, from the reference table's check column and
vendor column, the list of `(check key, stripped vendor value)` pairs of the
rows whose key is non-empty, in original row order. -/
def buildKeyed (checkCells vendorCells : List Cell) (nm em : Bool) :
    List (String × String) :=
  ((checkCells.map (fun v => normalize_check_number v nm em)).zip
    (vendorCells.map (fun v => pyStrip (pyFillnaStr v)))).filter
    (fun kv => kv.1 != "")

/-- Lookup in the series built at line 705
(`drop_duplicates(subset=["_check_key"], keep="first").set_index(...)`):
the value of the first pair bearing the key. -/
def lookupVal (keyed : List (String × String)) (k : String) : Option String :=
  (keyed.find? (fun kv => kv.1 == k)).map (fun kv => kv.2)

/-- The distinct values of a list, in first-occurrence order. -/
def dedupKeys (l : List String) : List String :=
  l.foldl (fun acc k => if k ∈ acc then acc else acc ++ [k]) []

/-- Lines 702-703: `value_counts()` over the non-empty keys restricted to
counts `> 1`, converted to a dict `{key: count}`. The dict is modelled as an
association list over the distinct keys in first-occurrence order (the dict
itself is unordered; only membership is observable). -/
def dupReport (keyed : List (String × String)) : List (String × Nat) :=
  (dedupKeys (keyed.map (fun kv => kv.1))).filterMap (fun k =>
    if 1 < keyed.countP (fun kv => kv.1 == k) then
      some (k, keyed.countP (fun kv => kv.1 == k))
    else none)

/-- The summary counters of lines 713-717. -/
structure Counters where
  total : Nat
  matched : Nat
  unmatched : Nat
  replaced : Nat
  skipped : Nat
deriving DecidableEq, Repr

/-- The mutable fields of the `CheckVendorUpdater` window that
`process_updates` writes: `self.updated_df`, `self.unmatched_df`,
`self.duplicates`. -/
structure AppState where
  updated_df : Option Table
  unmatched_df : Option Table
  duplicates : List (String × Nat)
deriving DecidableEq, Repr

/-- Internal column names appended to the working copy of the target table
during `process_updates` and dropped again at line 720. -/
def helperNames : List String :=
  ["_check_key", "_existing_vendor", "_matched_vendor", "_is_match"]

/-- `CheckVendorUpdater.process_updates` (app.py lines 687-742) together with
`_required_mapping` (lines 674-685), as a function of the window state and of
its inputs. The result is the new window state plus either the counters shown
in the summary box (success) or the error message shown by `_error`
(the `except` branch of line 741). Each `match` arm mirrors one statement of
the Python, in source order; reading a helper column right after assigning it
(lines 709, 711, 716, 717 read `_check_key`, `_matched_vendor`, `_is_match`)
yields the freshly assigned value lists, which are therefore reused
directly. -/
def process_updates (st : AppState) (quickbooks_df reference_df : Option Table)
    (qb_check0 qb_vendor0 ref_check0 ref_vendor0 : String)
    (normalize_mode extract_from_text_mode : Bool) :
    AppState × Except String Counters :=
  match quickbooks_df, reference_df with
  | some qbDf, some refDf =>
    -- _required_mapping strips the combo-box texts (lines 678-681).
    let qb_check := pyStrip qb_check0
    let qb_vendor := pyStrip qb_vendor0
    let ref_check := pyStrip ref_check0
    let ref_vendor := pyStrip ref_vendor0
    if qb_check = "" || qb_vendor = "" || ref_check = "" || ref_vendor = "" then
      (st, .error "missing_mapping")
    else
      match getColumn refDf ref_check with
      | none => (st, .error "KeyError")
      | some refCheckCells =>
        -- line 699: the RHS reads `ref_df[ref_check]` from the pristine copy,
        -- then the `_check_key` helper is assigned onto the local copy
        let refDf1 := setColumn refDf "_check_key"
          (List.map Cell.str (List.map (fun v =>
              normalize_check_number v normalize_mode extract_from_text_mode)
            refCheckCells))
        -- line 700 reads `ref_df[ref_vendor]` AFTER that assignment, so the
        -- vendor name "_check_key" resolves to the fresh keys; the
        -- `_vendor_value` assignment itself is unobservable past line 705,
        -- where the derived keyed list captures it
        match getColumn refDf1 ref_vendor with
        | none => (st, .error "KeyError")
        | some refVendorCells =>
          let keyed := buildKeyed refCheckCells refVendorCells
            normalize_mode extract_from_text_mode
          let st1 := { st with duplicates := dupReport keyed }
          match getColumn qbDf qb_check with
          | none => (st1, .error "KeyError")
          | some qbCheckCells =>
            -- line 707
            let qbKeys := qbCheckCells.map (fun v =>
              normalize_check_number v normalize_mode extract_from_text_mode)
            let df1 := setColumn qbDf "_check_key" (qbKeys.map Cell.str)
            -- line 708
            match getColumn df1 qb_vendor with
            | none => (st1, .error "KeyError")
            | some qbVendorCells =>
              let existing := qbVendorCells.map pyFillnaStr
              let df2 := setColumn df1 "_existing_vendor" (existing.map Cell.str)
              -- line 709: map of the `_check_key` column through the series
              let matchedCells := qbKeys.map (fun k =>
                match lookupVal keyed k with
                | some v => Cell.str v
                | none => Cell.null)
              let df3 := setColumn df2 "_matched_vendor" matchedCells
              -- line 710: notna
              let mask := matchedCells.map (fun c => !(pdIsna c))
              let df4 := setColumn df3 "_is_match" (mask.map Cell.bool)
              -- line 711
              let df5 := maskedSet df4 qb_vendor mask matchedCells
              -- lines 713-717
              let total := df5.rows.length
              let matchedCount := mask.count true
              let unmatchedCount := total - matchedCount
              let vendorAfter := (getColumn df5 qb_vendor).getD []
              let replaced := ((mask.zip (existing.zip (vendorAfter.map pyStr)))).countP
                (fun p => p.1 && (p.2.1 != p.2.2))
              let skipped := qbKeys.countP (· == "")
              -- lines 719-720
              let unmatchedTbl := projectCols (filterByMask df5 (mask.map (!·)))
                [qb_check, qb_vendor]
              let updatedTbl := dropCols df5 helperNames
              ({ st1 with unmatched_df := some unmatchedTbl, updated_df := some updatedTbl },
               .ok { total := total, matched := matchedCount,
                     unmatched := unmatchedCount, replaced := replaced,
                     skipped := skipped })
  | _, _ => (st, .error "missing_files")

/-- Line 707: the normalized check keys of the target column cells. -/
def pipeKeys (qcc : List Cell) (nm em : Bool) : List String :=
  qcc.map (fun v => normalize_check_number v nm em)

/-- Line 709: the `_matched_vendor` helper column built from the keys. -/
def pipeMatched (keyed : List (String × String)) (keys : List String) : List Cell :=
  keys.map (fun k =>
    match lookupVal keyed k with
    | some v => Cell.str v
    | none => Cell.null)

/-- The cell stored in `_matched_vendor` for one looked-up value: the string
on a hit, `NaN` on a miss. -/
def matchCell : Option String → Cell
  | some v => Cell.str v
  | none => Cell.null

/-- Line 710: the `_is_match` boolean series (`notna` of `_matched_vendor`). -/
def pipeMask (matchedCells : List Cell) : List Bool :=
  matchedCells.map (fun c => !(pdIsna c))

/-- The working copy of the target table after lines 707-711: the four helper
columns assigned and the vendor column overwritten on matched rows. -/
def pipeDf5 (qb : Table) (qv : String) (keyed : List (String × String))
    (qcc qvc : List Cell) (nm em : Bool) : Table :=
  maskedSet
    (setColumn
      (setColumn
        (setColumn
          (setColumn qb "_check_key" ((pipeKeys qcc nm em).map Cell.str))
          "_existing_vendor" ((qvc.map pyFillnaStr).map Cell.str))
        "_matched_vendor" (pipeMatched keyed (pipeKeys qcc nm em)))
      "_is_match" ((pipeMask (pipeMatched keyed (pipeKeys qcc nm em))).map Cell.bool))
    qv (pipeMask (pipeMatched keyed (pipeKeys qcc nm em)))
    (pipeMatched keyed (pipeKeys qcc nm em))

/-- The check key of one target row, given the index of the check column:
`normalize_check_number(row[checkColumn], ...)` (line 707 per row). -/
def rowKey (ic : Nat) (nm em : Bool) (r : List Cell) : String :=
  normalize_check_number (r.getD ic Cell.null) nm em

/-- The vendor value looked up for one target row (line 709 per row):
`some v` when the row matches, `none` when it does not. -/
def rowNew (keyed : List (String × String)) (ic : Nat) (nm em : Bool)
    (r : List Cell) : Option String :=
  lookupVal keyed (rowKey ic nm em r)

/-- The effect of the reconciliation on one target row: the vendor cell is
overwritten with the looked-up value on a match, and the row is untouched
otherwise (lines 711 and 720 per row). -/
def updRow (keyed : List (String × String)) (ic iv : Nat) (nm em : Bool)
    (r : List Cell) : List Cell :=
  match rowNew keyed ic nm em r with
  | some v => r.set iv (Cell.str v)
  | none => r

/-- The keyed reference list as a function of the reference table and its two
mapped columns. The vendor column is read from the working copy that already
carries the `_check_key` helper, because line 700 runs after line 699's
assignment; a vendor name of `"_check_key"` therefore resolves to the fresh
keys. -/
def refKeyed (ref : Table) (rc rv : String) (nm em : Bool) :
    List (String × String) :=
  buildKeyed ((getColumn ref rc).getD [])
    ((getColumn (setColumn ref "_check_key"
      (List.map Cell.str (List.map (fun v => normalize_check_number v nm em)
        ((getColumn ref rc).getD [])))) rv).getD [])
    nm em

/-- The replaced count as the code computes it, written directly over the
input tables: a matched row counts when the looked-up value differs from the
UNtrimmed string form of the row's original vendor cell (line 708 applies
`fillna("").astype(str)` with no `.str.strip()`). -/
def replacedActual (qb ref : Table) (qc qv rc rv : String) (nm em : Bool) : Nat :=
  (((getColumn qb qc).getD []).zip ((getColumn qb qv).getD [])).countP (fun p =>
    match lookupVal (refKeyed ref rc rv nm em) (normalize_check_number p.1 nm em) with
    | some v => pyFillnaStr p.2 != v
    | none => false)

/-- Modelled from the spec: the replaced count as §4.3 of the spec describes
it, with `priorValue = trim(toString(row[vendorColumn] or ""))` — the prior
vendor value TRIMMED before comparison. Kept separate from `replacedActual`
to compare the spec's wording with the code. -/
def replacedSpecTrimmed (qb ref : Table) (qc qv rc rv : String) (nm em : Bool) : Nat :=
  (((getColumn qb qc).getD []).zip ((getColumn qb qv).getD [])).countP (fun p =>
    match lookupVal (refKeyed ref rc rv nm em) (normalize_check_number p.1 nm em) with
    | some v => pyStrip (pyFillnaStr p.2) != v
    | none => false)

/-! ### Lemmas about stripping and the character classes -/

theorem dropWhile_eq_self_of_all {α : Type _} (p : α → Bool) (l : List α)
    (h : ∀ c ∈ l, p c = false) : l.dropWhile p = l := by
  cases l with
  | nil => rfl
  | cons a t => simp [List.dropWhile_cons, h a (List.mem_cons_self a t)]

theorem stripL_eq_rdrop (l : List Char) :
    stripL l = List.rdropWhile isSpaceC (l.dropWhile isSpaceC) := rfl

theorem dropWhile_rdropWhile_dropWhile (p : Char → Bool) (l : List Char) :
    List.dropWhile p (List.rdropWhile p (List.dropWhile p l)) =
      List.rdropWhile p (List.dropWhile p l) := by
  have hpre : List.rdropWhile p (List.dropWhile p l) <+: List.dropWhile p l :=
    List.rdropWhile_prefix p _
  rw [List.dropWhile_eq_self_iff]
  intro hl
  have h0 : (0 : Nat) < (List.dropWhile p l).length := lt_of_lt_of_le hl hpre.length_le
  have hBA : (List.rdropWhile p (List.dropWhile p l)).get ⟨0, hl⟩ =
      (List.dropWhile p l).get ⟨0, h0⟩ := by
    simpa [List.get_eq_getElem] using hpre.getElem hl
  rw [hBA]
  have hne : List.dropWhile p l ≠ [] := List.ne_nil_of_length_pos h0
  have hh := List.head_dropWhile_not p l hne
  rw [List.head_eq_getElem] at hh
  simp only [List.get_eq_getElem]
  simp [hh]

theorem stripL_idem (l : List Char) : stripL (stripL l) = stripL l := by
  rw [stripL_eq_rdrop l, stripL_eq_rdrop, dropWhile_rdropWhile_dropWhile,
    List.rdropWhile_idempotent]

theorem stripL_no_space (l : List Char) (h : ∀ c ∈ l, isSpaceC c = false) :
    stripL l = l := by
  unfold stripL
  rw [dropWhile_eq_self_of_all _ _ h,
    dropWhile_eq_self_of_all _ _ (fun c hc => h c (List.mem_reverse.mp hc)),
    List.reverse_reverse]

theorem mk_data (s : String) : String.mk s.data = s := rfl

theorem data_mk (l : List Char) : (String.mk l).data = l := rfl

theorem pyStrip_idem (s : String) : pyStrip (pyStrip s) = pyStrip s := by
  unfold pyStrip
  exact congrArg String.mk (stripL_idem s.data)

theorem pyStrip_no_space (s : String) (h : ∀ c ∈ s.data, isSpaceC c = false) :
    pyStrip s = s := by
  unfold pyStrip
  rw [stripL_no_space s.data h, mk_data]

theorem ne_empty_iff_data {s : String} : s ≠ "" ↔ s.data ≠ [] := by
  constructor
  · intro h hd
    exact h (String.ext hd)
  · intro h hd
    exact h (by rw [hd])

theorem digit_not_space {c : Char} (h : isDigitC c = true) : isSpaceC c = false := by
  simp only [isDigitC, Bool.and_eq_true, decide_eq_true_eq] at h
  obtain ⟨h0, _⟩ := h
  simp only [isSpaceC, Bool.or_eq_false_iff, decide_eq_false_iff_not]
  refine ⟨⟨⟨⟨⟨?_, ?_⟩, ?_⟩, ?_⟩, ?_⟩, ?_⟩ <;> rintro rfl <;> revert h0 <;> decide

theorem digit_toLower {c : Char} (h : isDigitC c = true) : toLowerC c = c := by
  simp only [isDigitC, Bool.and_eq_true, decide_eq_true_eq] at h
  obtain ⟨_, h9⟩ := h
  unfold toLowerC
  rw [if_neg]
  intro hc
  simp only [Bool.and_eq_true, decide_eq_true_eq] at hc
  exact absurd (le_trans hc.1 h9) (by decide)

theorem digit_toLower_ne_c {c : Char} (h : isDigitC c = true) : toLowerC c ≠ 'c' := by
  rw [digit_toLower h]
  rintro rfl
  exact absurd h (by decide)

theorem digits_no_word (l : List Char) (hl : l ≠ [])
    (hd : ∀ c ∈ l, isDigitC c = true) : anchoredDigits l = none := by
  obtain ⟨a, t, rfl⟩ := List.exists_cons_of_ne_nil hl
  have ha : isDigitC a = true := hd a (List.mem_cons_self a t)
  have hdw : (a :: t).dropWhile isSpaceC = a :: t :=
    dropWhile_eq_self_of_all _ _ (fun c hc => digit_not_space (hd c hc))
  have hc : ¬ (toLowerC a = 'c') := digit_toLower_ne_c ha
  unfold anchoredDigits
  rw [hdw]
  simp [CHECK_TEXT_WORDS, tryWords, matchWordCI, hc]

theorem takeWhile_digits_self (l : List Char) (hd : ∀ c ∈ l, isDigitC c = true) :
    l.takeWhile isDigitC = l :=
  List.takeWhile_eq_self_iff.mpr hd

theorem firstDigitRun_all_digits (l : List Char) (hl : l ≠ [])
    (hd : ∀ c ∈ l, isDigitC c = true) : firstDigitRun l = some l := by
  obtain ⟨a, t, rfl⟩ := List.exists_cons_of_ne_nil hl
  have ha : isDigitC a = true := hd a (List.mem_cons_self a t)
  simp only [firstDigitRun, ha, if_pos]
  rw [takeWhile_digits_self t (fun c hc => hd c (List.mem_cons_of_mem a hc))]

theorem endsWithD0_digits (l : List Char) (hd : ∀ c ∈ l, isDigitC c = true) :
    endsWithD0 l = false := by
  unfold endsWithD0
  split
  · next heq =>
    have hmem : ('.' : Char) ∈ l := by
      have : ('.' : Char) ∈ l.reverse := by rw [heq]; simp
      simpa using this
    exact absurd (hd _ hmem) (by decide)
  · rfl

theorem normalize_digits (v : String) (m e : Bool) (h1 : v ≠ "")
    (h2 : ∀ c ∈ v.data, isDigitC c = true) :
    normalize_check_number (Cell.str v) m e = v := by
  have hstrip : pyStrip v = v :=
    pyStrip_no_space v (fun c hc => digit_not_space (h2 c hc))
  have hvdata : v.data ≠ [] := ne_empty_iff_data.mp h1
  simp only [normalize_check_number, pdIsna, pyStr, hstrip,
    if_neg (show ¬ v = "" from h1), Bool.false_eq_true, if_false]
  rw [endsWithD0_digits v.data h2]
  simp only [Bool.false_eq_true, if_false]
  cases m with
  | false => rfl
  | true =>
    simp only [Bool.not_true, Bool.false_eq_true, if_false]
    cases e with
    | false => rfl
    | true =>
      rw [digits_no_word v.data hvdata h2, firstDigitRun_all_digits v.data hvdata h2]
      exact mk_data v

/-! ### General list helpers -/

theorem zip_self {α : Type _} (l : List α) : l.zip l = l.map (fun a => (a, a)) := by
  induction l with
  | nil => rfl
  | cons a t ih => simp [List.zip_cons_cons, ih]

theorem zipWith_self_eq_map {α β : Type _} (f : α → α → β) (l : List α) :
    List.zipWith f l l = l.map (fun a => f a a) := by
  induction l with
  | nil => rfl
  | cons a t ih => simp [ih]

theorem zip_map_self {α β γ : Type _} (f : α → β) (g : α → γ) (l : List α) :
    (l.map f).zip (l.map g) = l.map (fun a => (f a, g a)) := by
  rw [List.zip_map, zip_self, List.map_map]
  rfl

theorem zipWith_map_self {α β γ δ : Type _} (h : β → γ → δ) (f : α → β) (g : α → γ)
    (l : List α) :
    List.zipWith h (l.map f) (l.map g) = l.map (fun a => h (f a) (g a)) := by
  rw [List.zipWith_map_left, List.zipWith_map_right, zipWith_self_eq_map]

theorem countP_zip_fst {α β : Type _} (q : α → Bool) :
    ∀ (l₁ : List α) (l₂ : List β), l₁.length = l₂.length →
      (l₁.zip l₂).countP (fun p => q p.1) = l₁.countP q := by
  intro l₁
  induction l₁ with
  | nil => intro l₂ _; rfl
  | cons a t ih =>
    intro l₂ hlen
    cases l₂ with
    | nil => simp at hlen
    | cons b u =>
      simp only [List.zip_cons_cons, List.countP_cons, ih u (by simpa using hlen)]

theorem find?_congr' {α : Type _} (p q : α → Bool) (l : List α)
    (h : ∀ a ∈ l, p a = q a) : l.find? p = l.find? q := by
  induction l with
  | nil => rfl
  | cons a t ih =>
    simp only [List.find?_cons]
    rw [h a (List.mem_cons_self a t)]
    split
    · rfl
    · exact ih (fun x hx => h x (List.mem_cons_of_mem a hx))

theorem mem_dedupKeys_aux (x : String) :
    ∀ (l acc : List String),
      (x ∈ l.foldl (fun acc k => if k ∈ acc then acc else acc ++ [k]) acc ↔
        x ∈ acc ∨ x ∈ l) := by
  intro l
  induction l with
  | nil => intro acc; simp
  | cons a t ih =>
    intro acc
    simp only [List.foldl_cons, ih]
    by_cases ha : a ∈ acc
    · simp only [if_pos ha, List.mem_cons]
      constructor
      · rintro (hx | hx)
        · exact Or.inl hx
        · exact Or.inr (Or.inr hx)
      · rintro (hx | rfl | hx)
        · exact Or.inl hx
        · exact Or.inl ha
        · exact Or.inr hx
    · simp only [if_neg ha, List.mem_append, List.mem_singleton, List.mem_cons]
      tauto

theorem mem_dedupKeys {x : String} {l : List String} :
    x ∈ dedupKeys l ↔ x ∈ l := by
  unfold dedupKeys
  rw [mem_dedupKeys_aux]
  simp

/-! ### The keyed reference list, the lookup index and the duplicate report -/

theorem buildKeyed_eq (cc vc : List Cell) (nm em : Bool) :
    buildKeyed cc vc nm em =
      ((cc.zip vc).map (fun rc =>
        (normalize_check_number rc.1 nm em, pyStrip (pyFillnaStr rc.2)))).filter
        (fun kv => kv.1 != "") := by
  unfold buildKeyed
  rw [List.zip_map]
  rfl

theorem mem_buildKeyed_ne_empty {cc vc : List Cell} {nm em : Bool}
    {kv : String × String} (h : kv ∈ buildKeyed cc vc nm em) : kv.1 ≠ "" := by
  unfold buildKeyed at h
  have := (List.mem_filter.mp h).2
  simpa using this

theorem lookupVal_empty (cc vc : List Cell) (nm em : Bool) :
    lookupVal (buildKeyed cc vc nm em) "" = none := by
  unfold lookupVal
  rw [List.find?_eq_none.mpr]
  · rfl
  · intro kv hkv
    have := mem_buildKeyed_ne_empty hkv
    simp [this]

theorem lookupVal_first (cc vc : List Cell) (nm em : Bool) (k : String)
    (hk : k ≠ "") :
    lookupVal (buildKeyed cc vc nm em) k =
      ((cc.zip vc).find? (fun rc => normalize_check_number rc.1 nm em == k)).map
        (fun rc => pyStrip (pyFillnaStr rc.2)) := by
  unfold lookupVal
  rw [buildKeyed_eq, List.find?_filter]
  have hcongr : ∀ a ∈ (cc.zip vc).map (fun rc =>
      (normalize_check_number rc.1 nm em, pyStrip (pyFillnaStr rc.2))),
      (decide ((a.1 != "") = true ∧ (a.1 == k) = true)) =
        (a.1 == k) := by
    intro a _
    by_cases hak : a.1 = k
    · subst hak
      simp [hk]
    · simp [hak]
  rw [find?_congr' _ _ _ hcongr, List.find?_map]
  rw [Option.map_map]
  apply congrArg
  apply find?_congr'
  intro a _
  rfl

theorem countP_keyed (cc vc : List Cell) (nm em : Bool) (k : String) (hk : k ≠ "")
    (hlen : cc.length = vc.length) :
    (buildKeyed cc vc nm em).countP (fun kv => kv.1 == k) =
      cc.countP (fun c => normalize_check_number c nm em == k) := by
  rw [buildKeyed_eq]
  rw [List.countP_filter, List.countP_map]
  have h1 : ((cc.zip vc).countP
      (fun rc => (normalize_check_number rc.1 nm em == k) &&
        (normalize_check_number rc.1 nm em != ""))) =
      (cc.zip vc).countP (fun rc => normalize_check_number rc.1 nm em == k) := by
    apply List.countP_congr
    intro rc _
    by_cases hek : normalize_check_number rc.1 nm em = k
    · simp [hek, hk]
    · simp [hek]
  have h2 : ((fun kv => (kv.1 == k) && (kv.1 != "")) ∘ (fun rc : Cell × Cell =>
      (normalize_check_number rc.1 nm em, pyStrip (pyFillnaStr rc.2)))) =
      (fun rc : Cell × Cell => (normalize_check_number rc.1 nm em == k) &&
        (normalize_check_number rc.1 nm em != "")) := rfl
  rw [h2, h1]
  exact countP_zip_fst (fun c => normalize_check_number c nm em == k) cc vc hlen

theorem mem_dupReport {keyed : List (String × String)} {k : String} {n : Nat} :
    (k, n) ∈ dupReport keyed ↔
      (k ∈ keyed.map (fun kv => kv.1) ∧ 1 < n ∧
        n = keyed.countP (fun kv => kv.1 == k)) := by
  unfold dupReport
  rw [List.mem_filterMap]
  constructor
  · rintro ⟨a, ha, hfa⟩
    split at hfa
    · next hlt =>
      obtain ⟨rfl, rfl⟩ : a = k ∧ keyed.countP (fun kv => kv.1 == a) = n := by
        have h1 := congrArg (fun o => Option.map Prod.fst o) hfa
        have h2 := congrArg (fun o => Option.map Prod.snd o) hfa
        simp at h1 h2
        exact ⟨h1, h2⟩
      exact ⟨mem_dedupKeys.mp ha, hlt, rfl⟩
    · simp at hfa
  · rintro ⟨hmem, hlt, rfl⟩
    refine ⟨k, mem_dedupKeys.mpr hmem, ?_⟩
    rw [if_pos hlt]

/-! ### Digit-only outputs of the two patterns -/

theorem matchTail_digits {cs ds : List Char} (h : matchTail cs = some ds) :
    ∀ c ∈ ds, isDigitC c = true := by
  simp only [matchTail] at h
  split at h
  · exact absurd h (by simp)
  · split at h
    · obtain rfl : _ = ds := (Option.some.injEq _ _).mp h
      intro c hc
      exact List.mem_takeWhile_imp hc
    · exact absurd h (by simp)

theorem tryWords_digits :
    ∀ (ws : List (List Char)) (cs ds : List Char), tryWords ws cs = some ds →
      ∀ c ∈ ds, isDigitC c = true := by
  intro ws
  induction ws with
  | nil => intro cs ds h; simp [tryWords] at h
  | cons w ws ih =>
    intro cs ds h
    simp only [tryWords] at h
    split at h
    · split at h
      · next hds =>
        obtain rfl := (Option.some.injEq _ _).mp h
        exact matchTail_digits hds
      · exact ih cs ds h
    · exact ih cs ds h

theorem anchoredDigits_digits {cs ds : List Char} (h : anchoredDigits cs = some ds) :
    ∀ c ∈ ds, isDigitC c = true := by
  unfold anchoredDigits at h
  exact tryWords_digits _ _ _ h

theorem firstDigitRun_digits_mem :
    ∀ (l ds : List Char), firstDigitRun l = some ds → ∀ c ∈ ds, isDigitC c = true := by
  intro l
  induction l with
  | nil => intro ds h; simp [firstDigitRun] at h
  | cons a t ih =>
    intro ds h
    simp only [firstDigitRun] at h
    split at h
    · next ha =>
      obtain rfl := (Option.some.injEq _ _).mp h
      intro c hc
      rcases List.mem_cons.mp hc with rfl | hc
      · exact ha
      · exact List.mem_takeWhile_imp hc
    · exact ih ds h

/-! ### Claims about the Check-Key Normalizer -/

/-- C10: for every raw value and both mode flags, the string returned by
`normalize_check_number` has no surrounding whitespace — it equals its own
trim — so every key in the lookup index and every key used during matching
is a trimmed string. -/
theorem c10_normalizer_output_trimmed (value : Cell) (nm em : Bool) :
    pyStrip (normalize_check_number value nm em) =
      normalize_check_number value nm em := by
  simp only [normalize_check_number]
  split
  · rfl
  · split
    · rfl
    · split
      · exact pyStrip_idem _
      · split
        · split
          · next ds _ =>
            exact pyStrip_no_space (String.mk ds)
              (fun c hc => digit_not_space (anchoredDigits_digits (by assumption) c hc))
          · split
            · next ds _ =>
              exact pyStrip_no_space (String.mk ds)
                (fun c hc => digit_not_space (firstDigitRun_digits_mem _ _
                  (by assumption) c hc))
            · split
              · exact pyStrip_idem _
              · exact pyStrip_idem _
        · split
          · exact pyStrip_idem _
          · exact pyStrip_idem _

/-- C5: for every non-null raw value `v` and any extract flag,
`normalize(v, false, *)` equals the trimmed string form of `v` (exact-match
mode ignores the extract flag), and a null raw value normalizes to `""`
regardless of flags. -/
theorem c5_exact_match_mode (value : Cell) (m e e2 : Bool) (h : value ≠ Cell.null) :
    normalize_check_number value false e = pyStrip (pyStr value) ∧
    normalize_check_number Cell.null m e2 = "" := by
  constructor
  · have hna : pdIsna value = false := by
      cases value with
      | null => exact absurd rfl h
      | str s => rfl
      | bool b => rfl
    simp only [normalize_check_number, hna, Bool.false_eq_true, if_false]
    split
    · next he => exact he.symm
    · simp
  · rfl

/-- Witness for C5 at the concrete cell `" 7 "`. -/
theorem c5_witness :
    normalize_check_number (Cell.str " 7 ") false true =
      pyStrip (pyStr (Cell.str " 7 ")) ∧
    normalize_check_number Cell.null true true = "" :=
  c5_exact_match_mode (Cell.str " 7 ") true true true (by decide)

/-- Already-cleaned numeric keys are fixed points of the normalizer, for any
flag combination (app.py lines 203-225). -/
theorem normalize_digits_fixpoint (v : String) (m e : Bool) (h1 : v ≠ "")
    (h2 : ∀ c ∈ v.data, isDigitC c = true) :
    normalize_check_number (Cell.str v) m e = v :=
  normalize_digits v m e h1 h2

/-- C9: idempotence of the normalizer on already-cleaned numeric keys: for a
non-empty all-digit string `v` and any flags, normalizing twice equals
normalizing once. -/
theorem c9_normalize_idempotent (v : String) (m e : Bool) (h1 : v ≠ "")
    (h2 : ∀ c ∈ v.data, isDigitC c = true) :
    normalize_check_number (Cell.str (normalize_check_number (Cell.str v) m e)) m e =
      normalize_check_number (Cell.str v) m e := by
  rw [normalize_digits v m e h1 h2, normalize_digits v m e h1 h2]

/-- Witness for C9 at `v = "101"` with both flags on. -/
theorem c9_witness :
    normalize_check_number
        (Cell.str (normalize_check_number (Cell.str "101") true true)) true true =
      normalize_check_number (Cell.str "101") true true :=
  c9_normalize_idempotent "101" true true (by decide) (by decide)

/-- C4: with normalize on, a trailing `".0"` suffix is removed (stated for
every non-empty all-digit `v`); with extract on, the anchored check-word
pattern is tried first and, failing that, the first maximal digit run found
anywhere is returned, falling back to the cleaned text when neither matches;
in particular the four examples of the spec hold, `"check 12 x"` falls
through to the digit-run rule, and `"abc"` falls through to the cleaned
text. -/
theorem c4_extraction_rules (v : String) (h1 : v ≠ "")
    (h2 : ∀ c ∈ v.data, isDigitC c = true) :
    normalize_check_number (Cell.str (v ++ ".0")) true false = v ∧
    normalize_check_number (Cell.str "101.0") true false = "101" ∧
    normalize_check_number (Cell.str "Check 101") true true = "101" ∧
    normalize_check_number (Cell.str "CHK-101") true true = "101" ∧
    normalize_check_number (Cell.str "Check 101") true false = "Check 101" ∧
    normalize_check_number (Cell.str "check 12 x") true true = "12" ∧
    normalize_check_number (Cell.str "abc") true true = "abc" := by
  refine ⟨?_, rfl, rfl, rfl, rfl, rfl, rfl⟩
  have hd : ∀ c ∈ (v ++ ".0").data, isSpaceC c = false := by
    intro c hc
    rw [String.data_append] at hc
    rcases List.mem_append.mp hc with hc | hc
    · exact digit_not_space (h2 c hc)
    · have : c = '.' ∨ c = '0' := by simpa using hc
      rcases this with rfl | rfl <;> decide
  have hne : (v ++ ".0") ≠ "" := by
    rw [ne_empty_iff_data, String.data_append]
    simp [show (".0" : String).data = ['.', '0'] from rfl]
  have hends : endsWithD0 (v ++ ".0").data = true := by
    rw [String.data_append]
    show endsWithD0 (v.data ++ ['.', '0']) = true
    unfold endsWithD0
    rw [List.reverse_append]
    rfl
  have hdrop : (v ++ ".0").data.dropLast.dropLast = v.data := by
    rw [String.data_append]
    show (v.data ++ ['.', '0']).dropLast.dropLast = v.data
    have hsplit : v.data ++ ['.', '0'] = (v.data ++ ['.']) ++ ['0'] := by simp
    rw [hsplit, List.dropLast_concat, List.dropLast_concat]
  simp only [normalize_check_number, pdIsna, pyStr]
  rw [pyStrip_no_space _ hd, if_neg hne]
  simp only [Bool.not_true, Bool.false_eq_true, if_false]
  rw [pyStrip_no_space _ hd, hends]
  simp only [if_true, hdrop, mk_data]
  exact pyStrip_no_space v (fun c hc => digit_not_space (h2 c hc))

/-- Witness for C4 at `v = "101"`. -/
theorem c4_witness :
    normalize_check_number (Cell.str ("101" ++ ".0")) true false = "101" ∧
    normalize_check_number (Cell.str "101.0") true false = "101" ∧
    normalize_check_number (Cell.str "Check 101") true true = "101" ∧
    normalize_check_number (Cell.str "CHK-101") true true = "101" ∧
    normalize_check_number (Cell.str "Check 101") true false = "Check 101" ∧
    normalize_check_number (Cell.str "check 12 x") true true = "12" ∧
    normalize_check_number (Cell.str "abc") true true = "abc" :=
  c4_extraction_rules "101" (by decide) (by decide)

/-! ### Claims about the Lookup Index Builder -/

/-- C3: the lookup index maps each non-empty key to the trimmed vendor value
of the FIRST reference row (original order) bearing that key; the duplicate
report lists exactly the keys occurring more than once, with their full
occurrence counts; rows with an empty normalized key contribute to neither
the index nor the duplicate report. -/
theorem c3_index_first_wins (cc vc : List Cell) (nm em : Bool) (k : String)
    (n : Nat) (hk : k ≠ "") (hlen : cc.length = vc.length) :
    lookupVal (buildKeyed cc vc nm em) k =
      ((cc.zip vc).find? (fun rc => normalize_check_number rc.1 nm em == k)).map
        (fun rc => pyStrip (pyFillnaStr rc.2)) ∧
    ((k, n) ∈ dupReport (buildKeyed cc vc nm em) ↔
      1 < n ∧ n = cc.countP (fun c => normalize_check_number c nm em == k)) ∧
    lookupVal (buildKeyed cc vc nm em) "" = none ∧
    ("", n) ∉ dupReport (buildKeyed cc vc nm em) := by
  refine ⟨lookupVal_first cc vc nm em k hk, ?_, lookupVal_empty cc vc nm em, ?_⟩
  · rw [mem_dupReport, countP_keyed cc vc nm em k hk hlen]
    constructor
    · rintro ⟨_, hlt, hn⟩
      exact ⟨hlt, hn⟩
    · rintro ⟨hlt, hn⟩
      refine ⟨?_, hlt, hn⟩
      have hpos : 0 < (buildKeyed cc vc nm em).countP (fun kv => kv.1 == k) := by
        rw [countP_keyed cc vc nm em k hk hlen]
        omega
      obtain ⟨kv, hkv, hkvk⟩ := List.countP_pos_iff.mp hpos
      exact List.mem_map.mpr ⟨kv, hkv, by simpa using hkvk⟩
  · intro hmem
    obtain ⟨hmm, _, _⟩ := mem_dupReport.mp hmem
    obtain ⟨kv, hkv, hfst⟩ := List.mem_map.mp hmm
    exact (mem_buildKeyed_ne_empty hkv) hfst

/-- Witness for C3 on the reference rows of the end-to-end scenario, at
key `"101"` and count `2`. -/
theorem c3_witness :
    lookupVal (buildKeyed [Cell.str "101", Cell.str "102", Cell.str "101"]
      [Cell.str "Acme Co", Cell.str "Beta LLC", Cell.str "Acme Duplicate"]
      true true) "101" = some "Acme Co" ∧
    ("101", 2) ∈ dupReport (buildKeyed [Cell.str "101", Cell.str "102", Cell.str "101"]
      [Cell.str "Acme Co", Cell.str "Beta LLC", Cell.str "Acme Duplicate"]
      true true) := by
  have h := c3_index_first_wins [Cell.str "101", Cell.str "102", Cell.str "101"]
    [Cell.str "Acme Co", Cell.str "Beta LLC", Cell.str "Acme Duplicate"]
    true true "101" 2 (by decide) (by decide)
  refine ⟨?_, ?_⟩
  · rw [h.1]
    rfl
  · rw [h.2.1]
    exact ⟨by decide, by decide⟩

/-! ### The end-to-end scenario -/

/-- C1: building the index from reference rows
`[("101","Acme Co"), ("102","Beta LLC"), ("101","Acme Duplicate")]` with both
modes on yields the lookup index `{"101": "Acme Co", "102": "Beta LLC"}` and
duplicate report `{"101": 2}`; reconciling target rows
`[("Check 101","Old Name"), ("103","X"), ("","Y")]` against it yields the
updated table `[("Check 101","Acme Co"), ("103","X"), ("","Y")]`, the
unmatched table `[("103","X"), ("","Y")]`, and counters total 3, matched 1,
unmatched 2, replaced 1, skipped 1. -/
theorem c1_end_to_end :
    (∀ k : String,
      lookupVal (buildKeyed [Cell.str "101", Cell.str "102", Cell.str "101"]
        [Cell.str "Acme Co", Cell.str "Beta LLC", Cell.str "Acme Duplicate"]
        true true) k =
        if k = "101" then some "Acme Co"
        else if k = "102" then some "Beta LLC"
        else none) ∧
    process_updates ⟨none, none, []⟩
      (some ⟨["Num", "Vendor"],
        [[Cell.str "Check 101", Cell.str "Old Name"],
         [Cell.str "103", Cell.str "X"],
         [Cell.str "", Cell.str "Y"]]⟩)
      (some ⟨["RefCheck", "RefVendor"],
        [[Cell.str "101", Cell.str "Acme Co"],
         [Cell.str "102", Cell.str "Beta LLC"],
         [Cell.str "101", Cell.str "Acme Duplicate"]]⟩)
      "Num" "Vendor" "RefCheck" "RefVendor" true true =
      (⟨some ⟨["Num", "Vendor"],
          [[Cell.str "Check 101", Cell.str "Acme Co"],
           [Cell.str "103", Cell.str "X"],
           [Cell.str "", Cell.str "Y"]]⟩,
        some ⟨["Num", "Vendor"],
          [[Cell.str "103", Cell.str "X"],
           [Cell.str "", Cell.str "Y"]]⟩,
        [("101", 2)]⟩,
       .ok ⟨3, 1, 2, 1, 1⟩) := by
  constructor
  · intro k
    have hb : buildKeyed [Cell.str "101", Cell.str "102", Cell.str "101"]
        [Cell.str "Acme Co", Cell.str "Beta LLC", Cell.str "Acme Duplicate"]
        true true =
        [("101", "Acme Co"), ("102", "Beta LLC"), ("101", "Acme Duplicate")] := by
      rfl
    unfold lookupVal
    rw [hb]
    by_cases h1 : k = "101"
    · subst h1
      rfl
    · by_cases h2 : k = "102"
      · subst h2
        rfl
      · rw [if_neg h1, if_neg h2, List.find?_eq_none.mpr, Option.map_none']
        intro kv hkv
        simp only [List.mem_cons, List.not_mem_nil, or_false] at hkv
        rcases hkv with rfl | rfl | rfl
        · simp only [beq_iff_eq]
          exact fun hc => h1 hc.symm
        · simp only [beq_iff_eq]
          exact fun hc => h2 hc.symm
        · simp only [beq_iff_eq]
          exact fun hc => h1 hc.symm
  · rfl

/-! ### Table operation lemmas -/

theorem findIdx?_not_mem {l : List String} {c : String} (h : c ∉ l) :
    l.findIdx? (· == c) = none := by
  rw [List.findIdx?_eq_none_iff]
  intro x hx
  simp only [beq_eq_false_iff_ne, ne_eq]
  rintro rfl
  exact h hx

theorem findIdx?_lt_length {l : List String} {c : String} {i : Nat}
    (h : l.findIdx? (· == c) = some i) : i < l.length :=
  (List.findIdx?_eq_some_iff_findIdx_eq.mp h).1

theorem findIdx?_append_left {l₁ l₂ : List String} {c : String} {i : Nat}
    (h : l₁.findIdx? (· == c) = some i) :
    (l₁ ++ l₂).findIdx? (· == c) = some i := by
  rw [List.findIdx?_append, h]
  rfl

theorem getColumn_some_of_findIdx {t : Table} {c : String} {i : Nat}
    (h : t.cols.findIdx? (· == c) = some i) :
    getColumn t c = some (t.rows.map (fun r => r.getD i Cell.null)) := by
  unfold getColumn
  rw [h]

theorem setColumn_new {t : Table} {c : String} (vals : List Cell)
    (h : c ∉ t.cols) :
    setColumn t c vals =
      ⟨t.cols ++ [c], List.zipWith (fun r v => r ++ [v]) t.rows vals⟩ := by
  unfold setColumn
  rw [findIdx?_not_mem h]

theorem maskedSet_eq {t : Table} {c : String} {i : Nat} (mask : List Bool)
    (vals : List Cell) (h : t.cols.findIdx? (· == c) = some i) :
    maskedSet t c mask vals =
      ⟨t.cols, (t.rows.zip (mask.zip vals)).map
        (fun p => if p.2.1 then p.1.set i p.2.2 else p.1)⟩ := by
  unfold maskedSet
  rw [h]

/-! ### Counting helpers for the reconciliation counters -/

theorem count_true_eq_countP (l : List Bool) :
    l.count true = l.countP (fun b => b) := by
  rw [List.count_eq_countP]
  apply List.countP_congr
  intro b _
  cases b <;> simp

/-! ### The error paths of process_updates -/

/-- The full value of a successful run, in terms of the pipeline stages. -/
theorem process_ok_eq (st : AppState) (qb ref : Table) (qc qv rc rv : String)
    (nm em : Bool) {rcc rvc qcc qvc : List Cell} (h1 : pyStrip qc ≠ "")
    (h2 : pyStrip qv ≠ "") (h3 : pyStrip rc ≠ "") (h4 : pyStrip rv ≠ "")
    (hrcc : getColumn ref (pyStrip rc) = some rcc)
    (hrvc : getColumn (setColumn ref "_check_key"
        (List.map Cell.str (List.map (fun v => normalize_check_number v nm em) rcc)))
        (pyStrip rv) = some rvc)
    (hqcc : getColumn qb (pyStrip qc) = some qcc)
    (hqvc : getColumn (setColumn qb "_check_key"
        (List.map Cell.str (List.map (fun v => normalize_check_number v nm em) qcc)))
        (pyStrip qv) = some qvc) :
    process_updates st (some qb) (some ref) qc qv rc rv nm em =
      (⟨some (dropCols
          (pipeDf5 qb (pyStrip qv) (buildKeyed rcc rvc nm em) qcc qvc nm em)
          helperNames),
        some (projectCols
          (filterByMask
            (pipeDf5 qb (pyStrip qv) (buildKeyed rcc rvc nm em) qcc qvc nm em)
            ((pipeMask (pipeMatched (buildKeyed rcc rvc nm em)
              (pipeKeys qcc nm em))).map (!·)))
          [pyStrip qc, pyStrip qv]),
        dupReport (buildKeyed rcc rvc nm em)⟩,
       .ok ⟨(pipeDf5 qb (pyStrip qv) (buildKeyed rcc rvc nm em) qcc qvc nm em).rows.length,
            (pipeMask (pipeMatched (buildKeyed rcc rvc nm em)
              (pipeKeys qcc nm em))).count true,
            (pipeDf5 qb (pyStrip qv) (buildKeyed rcc rvc nm em) qcc qvc nm em).rows.length -
              (pipeMask (pipeMatched (buildKeyed rcc rvc nm em)
                (pipeKeys qcc nm em))).count true,
            ((pipeMask (pipeMatched (buildKeyed rcc rvc nm em)
              (pipeKeys qcc nm em))).zip
              ((qvc.map pyFillnaStr).zip
                (((getColumn (pipeDf5 qb (pyStrip qv) (buildKeyed rcc rvc nm em)
                    qcc qvc nm em) (pyStrip qv)).getD []).map pyStr))).countP
              (fun p => p.1 && (p.2.1 != p.2.2)),
            (pipeKeys qcc nm em).countP (· == "")⟩) := by
  simp only [process_updates]
  rw [if_neg (by simp [h1, h2, h3, h4])]
  simp only [hrcc, hrvc, hqcc, hqvc]
  rfl

/-! ### Claims about error handling -/

theorem zipWith_snd_map {α β γ : Type _} (f : α → β → γ) (g : α → β) (l : List α) :
    List.zipWith f l (l.map g) = l.map (fun a => f a (g a)) := by
  rw [List.zipWith_map_right]
  exact zipWith_self_eq_map _ l

theorem contains_eq_false_of_not_mem {l : List String} {c : String} (h : c ∉ l) :
    l.contains c = false := by
  cases hcon : l.contains c with
  | false => rfl
  | true => exact absurd (List.elem_iff.mp hcon) h

theorem updRow_length (keyed : List (String × String)) (ic iv : Nat) (nm em : Bool)
    (r : List Cell) : (updRow keyed ic iv nm em r).length = r.length := by
  unfold updRow
  cases rowNew keyed ic nm em r <;> simp

theorem getD_set_self {l : List Cell} {i : Nat} {a d : Cell} (h : i < l.length) :
    (l.set i a).getD i d = a := by
  rw [List.getD_eq_getElem?_getD, List.getElem?_set_self h]
  rfl

theorem setColumn_new_cols {t : Table} {c : String} (vals : List Cell)
    (h : c ∉ t.cols) : (setColumn t c vals).cols = t.cols ++ [c] := by
  rw [setColumn_new _ h]

theorem setColumn_new_rows {t : Table} {c : String} (vals : List Cell)
    (h : c ∉ t.cols) :
    (setColumn t c vals).rows = List.zipWith (fun r v => r ++ [v]) t.rows vals := by
  rw [setColumn_new _ h]

theorem pipeMatched_closed (qb : Table) (K : List (String × String))
    (nm em : Bool) (ic : Nat) :
    pipeMatched K (pipeKeys (qb.rows.map (fun r => r.getD ic Cell.null)) nm em) =
      qb.rows.map (fun r => matchCell (rowNew K ic nm em r)) := by
  unfold pipeMatched pipeKeys
  rw [List.map_map, List.map_map]
  rfl

theorem pipeMask_closed (qb : Table) (K : List (String × String))
    (nm em : Bool) (ic : Nat) :
    pipeMask (pipeMatched K (pipeKeys
      (qb.rows.map (fun r => r.getD ic Cell.null)) nm em)) =
      qb.rows.map (fun r => (rowNew K ic nm em r).isSome) := by
  unfold pipeMask
  rw [pipeMatched_closed, List.map_map]
  apply List.map_congr_left
  intro r _
  cases hn : rowNew K ic nm em r <;> simp [matchCell, pdIsna, Function.comp, hn]

theorem pipeDf5_closed (qb : Table) (qv : String) (K : List (String × String))
    (nm em : Bool) (ic iv : Nat) (hwf : qb.wf)
    (hck : "_check_key" ∉ qb.cols) (hev : "_existing_vendor" ∉ qb.cols)
    (hmv : "_matched_vendor" ∉ qb.cols) (him : "_is_match" ∉ qb.cols)
    (hiv : qb.cols.findIdx? (· == qv) = some iv) :
    pipeDf5 qb qv K (qb.rows.map (fun r => r.getD ic Cell.null))
        (qb.rows.map (fun r => r.getD iv Cell.null)) nm em =
      ⟨qb.cols ++ helperNames,
       qb.rows.map (fun r =>
         updRow K ic iv nm em r ++
           [Cell.str (rowKey ic nm em r),
            Cell.str (pyFillnaStr (r.getD iv Cell.null)),
            matchCell (rowNew K ic nm em r),
            Cell.bool (rowNew K ic nm em r).isSome])⟩ := by
  have hivl : iv < qb.cols.length := findIdx?_lt_length hiv
  have hev2 : "_existing_vendor" ∉ qb.cols ++ ["_check_key"] := by
    intro h
    rcases List.mem_append.mp h with h | h
    · exact hev h
    · revert h; decide
  have hmv2 : "_matched_vendor" ∉ (qb.cols ++ ["_check_key"]) ++ ["_existing_vendor"] := by
    intro h
    rcases List.mem_append.mp h with h | h
    · rcases List.mem_append.mp h with h | h
      · exact hmv h
      · revert h; decide
    · revert h; decide
  have him2 : "_is_match" ∉
      ((qb.cols ++ ["_check_key"]) ++ ["_existing_vendor"]) ++ ["_matched_vendor"] := by
    intro h
    rcases List.mem_append.mp h with h | h
    · rcases List.mem_append.mp h with h | h
      · rcases List.mem_append.mp h with h | h
        · exact him h
        · revert h; decide
      · revert h; decide
    · revert h; decide
  have hiv4 : ((((qb.cols ++ ["_check_key"]) ++ ["_existing_vendor"]) ++
      ["_matched_vendor"]) ++ ["_is_match"]).findIdx? (· == qv) = some iv :=
    findIdx?_append_left (findIdx?_append_left (findIdx?_append_left
      (findIdx?_append_left hiv)))
  have hV1 : (pipeKeys (qb.rows.map (fun r => r.getD ic Cell.null)) nm em).map
      Cell.str = qb.rows.map (fun r => Cell.str (rowKey ic nm em r)) := by
    unfold pipeKeys
    rw [List.map_map, List.map_map]
    rfl
  have hV2 : ((qb.rows.map (fun r => r.getD iv Cell.null)).map pyFillnaStr).map
      Cell.str =
      qb.rows.map (fun r => Cell.str (pyFillnaStr (r.getD iv Cell.null))) := by
    rw [List.map_map, List.map_map]
    rfl
  have hV3 : pipeMatched K (pipeKeys (qb.rows.map (fun r => r.getD ic Cell.null))
      nm em) = qb.rows.map (fun r => matchCell (rowNew K ic nm em r)) := by
    unfold pipeMatched pipeKeys
    rw [List.map_map, List.map_map]
    rfl
  have hM : pipeMask (pipeMatched K (pipeKeys
      (qb.rows.map (fun r => r.getD ic Cell.null)) nm em)) =
      qb.rows.map (fun r => (rowNew K ic nm em r).isSome) := by
    unfold pipeMask
    rw [hV3, List.map_map]
    apply List.map_congr_left
    intro r _
    cases hn : rowNew K ic nm em r <;> simp [matchCell, pdIsna, Function.comp, hn]
  have hV4 : (pipeMask (pipeMatched K (pipeKeys
      (qb.rows.map (fun r => r.getD ic Cell.null)) nm em))).map Cell.bool =
      qb.rows.map (fun r => Cell.bool (rowNew K ic nm em r).isSome) := by
    rw [hM, List.map_map]
    rfl
  have hc1 : (setColumn qb "_check_key"
      ((pipeKeys (qb.rows.map (fun r => r.getD ic Cell.null)) nm em).map
        Cell.str)).cols = qb.cols ++ ["_check_key"] :=
    setColumn_new_cols _ hck
  have hr1 : (setColumn qb "_check_key"
      ((pipeKeys (qb.rows.map (fun r => r.getD ic Cell.null)) nm em).map
        Cell.str)).rows =
      qb.rows.map (fun r => r ++ [Cell.str (rowKey ic nm em r)]) := by
    rw [setColumn_new_rows _ hck, hV1, zipWith_snd_map]
  have hev2' : "_existing_vendor" ∉ (setColumn qb "_check_key"
      ((pipeKeys (qb.rows.map (fun r => r.getD ic Cell.null)) nm em).map
        Cell.str)).cols := by
    rw [hc1]; exact hev2
  have hc2 : (setColumn (setColumn qb "_check_key"
      ((pipeKeys (qb.rows.map (fun r => r.getD ic Cell.null)) nm em).map Cell.str))
      "_existing_vendor"
      (((qb.rows.map (fun r => r.getD iv Cell.null)).map pyFillnaStr).map
        Cell.str)).cols =
      (qb.cols ++ ["_check_key"]) ++ ["_existing_vendor"] := by
    rw [setColumn_new_cols _ hev2', hc1]
  have hr2 : (setColumn (setColumn qb "_check_key"
      ((pipeKeys (qb.rows.map (fun r => r.getD ic Cell.null)) nm em).map Cell.str))
      "_existing_vendor"
      (((qb.rows.map (fun r => r.getD iv Cell.null)).map pyFillnaStr).map
        Cell.str)).rows =
      qb.rows.map (fun r => (r ++ [Cell.str (rowKey ic nm em r)]) ++
        [Cell.str (pyFillnaStr (r.getD iv Cell.null))]) := by
    rw [setColumn_new_rows _ hev2', hr1, hV2, zipWith_map_self]
  have hmv2' : "_matched_vendor" ∉ (setColumn (setColumn qb "_check_key"
      ((pipeKeys (qb.rows.map (fun r => r.getD ic Cell.null)) nm em).map Cell.str))
      "_existing_vendor"
      (((qb.rows.map (fun r => r.getD iv Cell.null)).map pyFillnaStr).map
        Cell.str)).cols := by
    rw [hc2]; exact hmv2
  have hc3 : (setColumn (setColumn (setColumn qb "_check_key"
      ((pipeKeys (qb.rows.map (fun r => r.getD ic Cell.null)) nm em).map Cell.str))
      "_existing_vendor"
      (((qb.rows.map (fun r => r.getD iv Cell.null)).map pyFillnaStr).map Cell.str))
      "_matched_vendor"
      (pipeMatched K (pipeKeys (qb.rows.map (fun r => r.getD ic Cell.null))
        nm em))).cols =
      ((qb.cols ++ ["_check_key"]) ++ ["_existing_vendor"]) ++ ["_matched_vendor"] := by
    rw [setColumn_new_cols _ hmv2', hc2]
  have hr3 : (setColumn (setColumn (setColumn qb "_check_key"
      ((pipeKeys (qb.rows.map (fun r => r.getD ic Cell.null)) nm em).map Cell.str))
      "_existing_vendor"
      (((qb.rows.map (fun r => r.getD iv Cell.null)).map pyFillnaStr).map Cell.str))
      "_matched_vendor"
      (pipeMatched K (pipeKeys (qb.rows.map (fun r => r.getD ic Cell.null))
        nm em))).rows =
      qb.rows.map (fun r => ((r ++ [Cell.str (rowKey ic nm em r)]) ++
        [Cell.str (pyFillnaStr (r.getD iv Cell.null))]) ++
        [matchCell (rowNew K ic nm em r)]) := by
    rw [setColumn_new_rows _ hmv2', hr2, hV3, zipWith_map_self]
  have him2' : "_is_match" ∉ (setColumn (setColumn (setColumn qb "_check_key"
      ((pipeKeys (qb.rows.map (fun r => r.getD ic Cell.null)) nm em).map Cell.str))
      "_existing_vendor"
      (((qb.rows.map (fun r => r.getD iv Cell.null)).map pyFillnaStr).map Cell.str))
      "_matched_vendor"
      (pipeMatched K (pipeKeys (qb.rows.map (fun r => r.getD ic Cell.null))
        nm em))).cols := by
    rw [hc3]; exact him2
  have hc4 : (setColumn (setColumn (setColumn (setColumn qb "_check_key"
      ((pipeKeys (qb.rows.map (fun r => r.getD ic Cell.null)) nm em).map Cell.str))
      "_existing_vendor"
      (((qb.rows.map (fun r => r.getD iv Cell.null)).map pyFillnaStr).map Cell.str))
      "_matched_vendor"
      (pipeMatched K (pipeKeys (qb.rows.map (fun r => r.getD ic Cell.null)) nm em)))
      "_is_match"
      ((pipeMask (pipeMatched K (pipeKeys
        (qb.rows.map (fun r => r.getD ic Cell.null)) nm em))).map Cell.bool)).cols =
      (((qb.cols ++ ["_check_key"]) ++ ["_existing_vendor"]) ++
        ["_matched_vendor"]) ++ ["_is_match"] := by
    rw [setColumn_new_cols _ him2', hc3]
  have hr4 : (setColumn (setColumn (setColumn (setColumn qb "_check_key"
      ((pipeKeys (qb.rows.map (fun r => r.getD ic Cell.null)) nm em).map Cell.str))
      "_existing_vendor"
      (((qb.rows.map (fun r => r.getD iv Cell.null)).map pyFillnaStr).map Cell.str))
      "_matched_vendor"
      (pipeMatched K (pipeKeys (qb.rows.map (fun r => r.getD ic Cell.null)) nm em)))
      "_is_match"
      ((pipeMask (pipeMatched K (pipeKeys
        (qb.rows.map (fun r => r.getD ic Cell.null)) nm em))).map Cell.bool)).rows =
      qb.rows.map (fun r => (((r ++ [Cell.str (rowKey ic nm em r)]) ++
        [Cell.str (pyFillnaStr (r.getD iv Cell.null))]) ++
        [matchCell (rowNew K ic nm em r)]) ++
        [Cell.bool (rowNew K ic nm em r).isSome]) := by
    rw [setColumn_new_rows _ him2', hr3, hV4, zipWith_map_self]
  have hiv4' : (setColumn (setColumn (setColumn (setColumn qb "_check_key"
      ((pipeKeys (qb.rows.map (fun r => r.getD ic Cell.null)) nm em).map Cell.str))
      "_existing_vendor"
      (((qb.rows.map (fun r => r.getD iv Cell.null)).map pyFillnaStr).map Cell.str))
      "_matched_vendor"
      (pipeMatched K (pipeKeys (qb.rows.map (fun r => r.getD ic Cell.null)) nm em)))
      "_is_match"
      ((pipeMask (pipeMatched K (pipeKeys
        (qb.rows.map (fun r => r.getD ic Cell.null)) nm em))).map
        Cell.bool)).cols.findIdx? (· == qv) = some iv := by
    rw [hc4]; exact hiv4
  unfold pipeDf5
  rw [maskedSet_eq _ _ hiv4']
  refine congrArg₂ Table.mk ?_ ?_
  · rw [hc4]
    simp [helperNames]
  · rw [hr4, hM, hV3, zip_map_self, zip_map_self, List.map_map]
    apply List.map_congr_left
    intro r hr
    have hlen : iv < r.length := by rw [hwf r hr]; exact hivl
    cases hn : rowNew K ic nm em r with
    | none =>
      simp only [Function.comp, hn, Option.isSome_none, Bool.false_eq_true,
        if_false, updRow, matchCell]
      simp
    | some v =>
      simp only [Function.comp, hn, Option.isSome_some, if_true, updRow, matchCell]
      rw [List.set_append, if_pos (by simp; omega), List.set_append,
        if_pos (by simp; omega), List.set_append, if_pos (by simp; omega),
        List.set_append, if_pos (by simpa using hlen)]
      simp

/-- The full closed form of a successful run over a well-formed target table
whose schema avoids the four internal helper column names. -/
theorem process_ok_closed (st : AppState) (qb ref : Table) (qc qv rc rv : String)
    (nm em : Bool) (ic iv : Nat) {rcc rvc : List Cell} (hwf : qb.wf)
    (hhelp : ∀ h ∈ helperNames, h ∉ qb.cols)
    (h1 : pyStrip qc ≠ "") (h2 : pyStrip qv ≠ "") (h3 : pyStrip rc ≠ "")
    (h4 : pyStrip rv ≠ "")
    (hrcc : getColumn ref (pyStrip rc) = some rcc)
    (hrvc : getColumn (setColumn ref "_check_key"
        (List.map Cell.str (List.map (fun v => normalize_check_number v nm em) rcc)))
        (pyStrip rv) = some rvc)
    (hic : qb.cols.findIdx? (· == pyStrip qc) = some ic)
    (hiv : qb.cols.findIdx? (· == pyStrip qv) = some iv) :
    process_updates st (some qb) (some ref) qc qv rc rv nm em =
      (⟨some ⟨qb.cols,
          qb.rows.map (updRow (buildKeyed rcc rvc nm em) ic iv nm em)⟩,
        some ⟨[pyStrip qc, pyStrip qv],
          (qb.rows.filter (fun r =>
            (rowNew (buildKeyed rcc rvc nm em) ic nm em r).isNone)).map
            (fun r => [r.getD ic Cell.null, r.getD iv Cell.null])⟩,
        dupReport (buildKeyed rcc rvc nm em)⟩,
       .ok ⟨qb.rows.length,
            qb.rows.countP (fun r =>
              (rowNew (buildKeyed rcc rvc nm em) ic nm em r).isSome),
            qb.rows.length - qb.rows.countP (fun r =>
              (rowNew (buildKeyed rcc rvc nm em) ic nm em r).isSome),
            qb.rows.countP (fun r =>
              match rowNew (buildKeyed rcc rvc nm em) ic nm em r with
              | some v => pyFillnaStr (r.getD iv Cell.null) != v
              | none => false),
            qb.rows.countP (fun r => rowKey ic nm em r == "")⟩) := by
  have hck : "_check_key" ∉ qb.cols := hhelp _ (by decide)
  have hev : "_existing_vendor" ∉ qb.cols := hhelp _ (by decide)
  have hmv : "_matched_vendor" ∉ qb.cols := hhelp _ (by decide)
  have him : "_is_match" ∉ qb.cols := hhelp _ (by decide)
  have hicl : ic < qb.cols.length := findIdx?_lt_length hic
  have hivl : iv < qb.cols.length := findIdx?_lt_length hiv
  have hqcc : getColumn qb (pyStrip qc) =
      some (qb.rows.map (fun r => r.getD ic Cell.null)) :=
    getColumn_some_of_findIdx hic
  have hd1rows : (setColumn qb "_check_key"
      (List.map Cell.str (List.map (fun v => normalize_check_number v nm em)
        (qb.rows.map (fun r => r.getD ic Cell.null))))).rows =
      qb.rows.map (fun r => r ++ [Cell.str (rowKey ic nm em r)]) := by
    rw [setColumn_new_rows _ hck, List.map_map, List.map_map, zipWith_snd_map]
    rfl
  have hd1cols : (setColumn qb "_check_key"
      (List.map Cell.str (List.map (fun v => normalize_check_number v nm em)
        (qb.rows.map (fun r => r.getD ic Cell.null))))).cols =
      qb.cols ++ ["_check_key"] :=
    setColumn_new_cols _ hck
  have hd1fi : (setColumn qb "_check_key"
      (List.map Cell.str (List.map (fun v => normalize_check_number v nm em)
        (qb.rows.map (fun r => r.getD ic Cell.null))))).cols.findIdx?
        (· == pyStrip qv) = some iv := by
    rw [hd1cols]
    exact findIdx?_append_left hiv
  have hqvcform : getColumn (setColumn qb "_check_key"
      (List.map Cell.str (List.map (fun v => normalize_check_number v nm em)
        (qb.rows.map (fun r => r.getD ic Cell.null))))) (pyStrip qv) =
      some (qb.rows.map (fun r => r.getD iv Cell.null)) := by
    rw [getColumn_some_of_findIdx hd1fi, hd1rows, List.map_map]
    refine congrArg some (List.map_congr_left ?_)
    intro r hr
    have hlen : iv < r.length := by rw [hwf r hr]; exact hivl
    exact List.getD_append _ _ _ _ hlen
  have hmain := process_ok_eq st qb ref qc qv rc rv nm em h1 h2 h3 h4 hrcc hrvc
    hqcc hqvcform
  rw [hmain]
  have hdf5 := pipeDf5_closed qb (pyStrip qv) (buildKeyed rcc rvc nm em) nm em
    ic iv hwf hck hev hmv him hiv
  have hmask := pipeMask_closed qb (buildKeyed rcc rvc nm em) nm em ic
  have hcols5 : (pipeDf5 qb (pyStrip qv) (buildKeyed rcc rvc nm em)
      (qb.rows.map (fun r => r.getD ic Cell.null))
      (qb.rows.map (fun r => r.getD iv Cell.null)) nm em).cols.findIdx?
      (· == pyStrip qv) = some iv := by
    rw [hdf5]
    exact findIdx?_append_left hiv
  have hva : ((getColumn (pipeDf5 qb (pyStrip qv) (buildKeyed rcc rvc nm em)
      (qb.rows.map (fun r => r.getD ic Cell.null))
      (qb.rows.map (fun r => r.getD iv Cell.null)) nm em) (pyStrip qv)).getD []) =
      qb.rows.map (fun r =>
        match rowNew (buildKeyed rcc rvc nm em) ic nm em r with
        | some v => Cell.str v
        | none => r.getD iv Cell.null) := by
    rw [getColumn_some_of_findIdx hcols5, Option.getD_some, hdf5]
    show (qb.rows.map _).map _ = _
    rw [List.map_map]
    apply List.map_congr_left
    intro r hr
    have hlen : iv < r.length := by rw [hwf r hr]; exact hivl
    have hlu : iv < (updRow (buildKeyed rcc rvc nm em) ic iv nm em r).length := by
      rw [updRow_length]; exact hlen
    show (updRow (buildKeyed rcc rvc nm em) ic iv nm em r ++ _).getD iv Cell.null = _
    rw [List.getD_append _ _ _ _ hlu]
    unfold updRow
    cases hn : rowNew (buildKeyed rcc rvc nm em) ic nm em r with
    | none => rfl
    | some v => exact getD_set_self hlen
  simp only [Prod.mk.injEq, AppState.mk.injEq, Option.some.injEq,
    Except.ok.injEq, Counters.mk.injEq]
  refine ⟨⟨?_, ?_, trivial⟩, ?_, ?_, ?_, ?_, ?_⟩
  · -- updated table
    rw [hdf5]
    unfold dropCols
    refine congrArg₂ Table.mk ?_ ?_
    · show ((qb.cols ++ helperNames).filter _) = qb.cols
      rw [List.filter_append]
      have hCkeep : qb.cols.filter (fun c => !(helperNames.contains c)) = qb.cols :=
        List.filter_eq_self.mpr (fun c hc => by
          rw [contains_eq_false_of_not_mem (fun hmem => hhelp c hmem hc)]
          rfl)
      have hHdrop : helperNames.filter (fun c => !(helperNames.contains c)) = [] := by
        rfl
      rw [hCkeep, hHdrop, List.append_nil]
    · show (qb.rows.map _).map _ = _
      rw [List.map_map]
      apply List.map_congr_left
      intro r hr
      have hlenu : (updRow (buildKeyed rcc rvc nm em) ic iv nm em r).length =
          qb.cols.length := by
        rw [updRow_length]; exact hwf r hr
      show ((((qb.cols ++ helperNames).zip (updRow (buildKeyed rcc rvc nm em)
        ic iv nm em r ++ _)).filter _).map _) = _
      rw [List.zip_append hlenu.symm, List.filter_append]
      have hfirst : ((qb.cols.zip (updRow (buildKeyed rcc rvc nm em)
          ic iv nm em r)).filter (fun p => !(helperNames.contains p.1))) =
          qb.cols.zip (updRow (buildKeyed rcc rvc nm em) ic iv nm em r) :=
        List.filter_eq_self.mpr (fun p hp => by
          rcases p with ⟨pc, pv⟩
          obtain ⟨hpc, _⟩ := List.mem_zip hp
          rw [contains_eq_false_of_not_mem (fun hmem => hhelp pc hmem hpc)]
          rfl)
      have hsecond : ((helperNames.zip
          [Cell.str (rowKey ic nm em r),
           Cell.str (pyFillnaStr (r.getD iv Cell.null)),
           matchCell (rowNew (buildKeyed rcc rvc nm em) ic nm em r),
           Cell.bool (rowNew (buildKeyed rcc rvc nm em) ic nm em r).isSome]).filter
          (fun p => !(helperNames.contains p.1))) = [] := by
        show List.filter _ [_, _, _, _] = []
        simp [helperNames, List.filter]
      rw [hfirst, hsecond, List.append_nil]
      exact List.map_snd_zip _ _ (le_of_eq hlenu)
  · -- unmatched table
    rw [hdf5]
    unfold projectCols filterByMask
    refine congrArg₂ Table.mk rfl ?_
    simp only [hmask, List.map_map, Function.comp, zip_map_self, List.filter_map]
    refine Eq.trans (congrArg _ (List.filter_congr (fun r _ => ?_)))
      (List.map_congr_left ?_)
    · show (!(rowNew (buildKeyed rcc rvc nm em) ic nm em r).isSome) =
        (rowNew (buildKeyed rcc rvc nm em) ic nm em r).isNone
      cases rowNew (buildKeyed rcc rvc nm em) ic nm em r <;> rfl
    intro r hr
    have hmemr : r ∈ qb.rows := (List.mem_filter.mp hr).1
    have hnone : (rowNew (buildKeyed rcc rvc nm em) ic nm em r).isNone = true :=
      (List.mem_filter.mp hr).2
    have hupd : updRow (buildKeyed rcc rvc nm em) ic iv nm em r = r := by
      unfold updRow
      cases hn : rowNew (buildKeyed rcc rvc nm em) ic nm em r with
      | none => rfl
      | some v => rw [hn] at hnone; cases hnone
    have hlic : ic < r.length := by rw [hwf r hmemr]; exact hicl
    have hliv : iv < r.length := by rw [hwf r hmemr]; exact hivl
    have hfi1 : ((qb.cols ++ helperNames).findIdx? (· == pyStrip qc)) = some ic :=
      findIdx?_append_left hic
    have hfi2 : ((qb.cols ++ helperNames).findIdx? (· == pyStrip qv)) = some iv :=
      findIdx?_append_left hiv
    show List.map (fun c =>
        match (qb.cols ++ helperNames).findIdx? (· == c) with
        | some i => (updRow (buildKeyed rcc rvc nm em) ic iv nm em r ++
            [Cell.str (rowKey ic nm em r),
             Cell.str (pyFillnaStr (r.getD iv Cell.null)),
             matchCell (rowNew (buildKeyed rcc rvc nm em) ic nm em r),
             Cell.bool (rowNew (buildKeyed rcc rvc nm em) ic nm em r).isSome]).getD
            i Cell.null
        | none => Cell.null) [pyStrip qc, pyStrip qv] =
      [r.getD ic Cell.null, r.getD iv Cell.null]
    simp only [List.map_cons, List.map_nil, hfi1, hfi2, hupd]
    rw [List.getD_append _ _ _ _ hlic, List.getD_append _ _ _ _ hliv]
  · -- total
    rw [hdf5]
    simp
  · -- matched
    rw [count_true_eq_countP, hmask, List.countP_map]
    rfl
  · -- unmatched
    rw [hdf5, count_true_eq_countP, hmask, List.countP_map]
    simp only [List.length_map]
    rfl
  · -- replaced
    simp only [hva, hmask, List.map_map, Function.comp, zip_map_self,
      List.countP_map]
    apply List.countP_congr
    intro r _
    show ((rowNew (buildKeyed rcc rvc nm em) ic nm em r).isSome &&
      (pyFillnaStr (r.getD iv Cell.null) != pyStr (match rowNew (buildKeyed rcc
        rvc nm em) ic nm em r with
        | some v => Cell.str v
        | none => r.getD iv Cell.null))) = true ↔ _
    cases hn : rowNew (buildKeyed rcc rvc nm em) ic nm em r <;> simp [hn, pyStr]
  · -- skipped
    unfold pipeKeys
    rw [List.countP_map, List.countP_map]
    rfl

/-! ### Claims about the replaced counter and the frame of the update -/

/-- Counterexample for C2 as stated: a matched row whose vendor cell is
`" Acme Co "` and whose looked-up value is `"Acme Co"` is counted as replaced
by the code (line 708 builds `_existing_vendor` WITHOUT `.str.strip()`),
while the spec's trimmed `priorValue` comparison predicts replaced = 0. -/
theorem c2_counterexample :
    (process_updates ⟨none, none, []⟩
        (some ⟨["Num", "Vendor"], [[Cell.str "101", Cell.str " Acme Co "]]⟩)
        (some ⟨["RefCheck", "RefVendor"], [[Cell.str "101", Cell.str "Acme Co"]]⟩)
        "Num" "Vendor" "RefCheck" "RefVendor" true true).2 =
      .ok ⟨1, 1, 0, 1, 0⟩ ∧
    replacedSpecTrimmed ⟨["Num", "Vendor"], [[Cell.str "101", Cell.str " Acme Co "]]⟩
      ⟨["RefCheck", "RefVendor"], [[Cell.str "101", Cell.str "Acme Co"]]⟩
      "Num" "Vendor" "RefCheck" "RefVendor" true true = 0 :=
  ⟨rfl, rfl⟩

/-- C2 (amended): on a successful run over a well-formed target table whose
schema avoids the reserved helper names, the replaced counter counts exactly
the matched rows whose looked-up vendor value differs textually from the
UNTRIMMED string form of the row's original vendor cell
(`str(row[vendorColumn])` with nulls as `""`; the code does not trim it). -/
theorem c2_replaced_untrimmed (st : AppState) (qb ref : Table)
    (qc qv rc rv : String) (nm em : Bool) (ic iv : Nat) {rcc rvc : List Cell}
    (cts : Counters) (hwf : qb.wf) (hhelp : ∀ h ∈ helperNames, h ∉ qb.cols)
    (h1 : pyStrip qc ≠ "") (h2 : pyStrip qv ≠ "") (h3 : pyStrip rc ≠ "")
    (h4 : pyStrip rv ≠ "")
    (hrcc : getColumn ref (pyStrip rc) = some rcc)
    (hrvc : getColumn (setColumn ref "_check_key"
        (List.map Cell.str (List.map (fun v => normalize_check_number v nm em) rcc)))
        (pyStrip rv) = some rvc)
    (hic : qb.cols.findIdx? (· == pyStrip qc) = some ic)
    (hiv : qb.cols.findIdx? (· == pyStrip qv) = some iv)
    (h : (process_updates st (some qb) (some ref) qc qv rc rv nm em).2 = .ok cts) :
    cts.replaced = replacedActual qb ref (pyStrip qc) (pyStrip qv) (pyStrip rc)
      (pyStrip rv) nm em := by
  rw [process_ok_closed st qb ref qc qv rc rv nm em ic iv hwf hhelp h1 h2 h3 h4
    hrcc hrvc hic hiv] at h
  obtain rfl := (Except.ok.inj h).symm
  show qb.rows.countP (fun r =>
    match rowNew (buildKeyed rcc rvc nm em) ic nm em r with
    | some v => pyFillnaStr (r.getD iv Cell.null) != v
    | none => false) = _
  unfold replacedActual refKeyed
  rw [hrcc]
  simp only [Option.getD_some]
  rw [hrvc, getColumn_some_of_findIdx hic, getColumn_some_of_findIdx hiv]
  simp only [Option.getD_some]
  rw [zip_map_self, List.countP_map]
  rfl

/-- Witness for C2 (amended) on a concrete run. -/
theorem c2_witness :
    (⟨3, 1, 2, 1, 1⟩ : Counters).replaced =
      replacedActual
        ⟨["Num", "Vendor"],
          [[Cell.str "Check 101", Cell.str "Old Name"],
           [Cell.str "103", Cell.str "X"],
           [Cell.str "", Cell.str "Y"]]⟩
        ⟨["RefCheck", "RefVendor"],
          [[Cell.str "101", Cell.str "Acme Co"],
           [Cell.str "102", Cell.str "Beta LLC"],
           [Cell.str "101", Cell.str "Acme Duplicate"]]⟩
        (pyStrip "Num") (pyStrip "Vendor") (pyStrip "RefCheck")
        (pyStrip "RefVendor") true true :=
  c2_replaced_untrimmed ⟨none, none, []⟩
    ⟨["Num", "Vendor"],
      [[Cell.str "Check 101", Cell.str "Old Name"],
       [Cell.str "103", Cell.str "X"],
       [Cell.str "", Cell.str "Y"]]⟩
    ⟨["RefCheck", "RefVendor"],
      [[Cell.str "101", Cell.str "Acme Co"],
       [Cell.str "102", Cell.str "Beta LLC"],
       [Cell.str "101", Cell.str "Acme Duplicate"]]⟩
    "Num" "Vendor" "RefCheck" "RefVendor" true true 0 1 ⟨3, 1, 2, 1, 1⟩
    (by unfold Table.wf; decide) (by decide) (by decide) (by decide) (by decide) (by decide)
    rfl rfl rfl rfl rfl

/-- Counterexample for C6 as stated: a target table that already contains a
column named `"_check_key"` loses that column (and its cell contents) in the
UpdatedTable — the output schema is not identical to the input schema, and a
non-vendor column is destroyed. The helper-column assignments of lines
707-710 overwrite it and line 720 drops it. -/
theorem c6_counterexample :
    (process_updates ⟨none, none, []⟩
        (some ⟨["Num", "_check_key", "Vendor"],
          [[Cell.str "101", Cell.str "keepme", Cell.str "X"]]⟩)
        (some ⟨["RefCheck", "RefVendor"], [[Cell.str "101", Cell.str "Acme Co"]]⟩)
        "Num" "Vendor" "RefCheck" "RefVendor" true true).1.updated_df =
      some ⟨["Num", "Vendor"], [[Cell.str "101", Cell.str "Acme Co"]]⟩ ∧
    (["Num", "Vendor"] : List String) ≠ ["Num", "_check_key", "Vendor"] :=
  ⟨rfl, by decide⟩

/-- C6 (amended): on a successful run over a well-formed target table whose
schema avoids the four reserved helper names, reconciliation never deletes or
reorders rows: the UpdatedTable has the input schema, the same number of rows
in the same positions, every cell outside the mapped vendor column is
unchanged, and unmatched rows are completely unchanged (the vendor column
changes only on matched rows). -/
theorem c6_frame_effect (st : AppState) (qb ref : Table)
    (qc qv rc rv : String) (nm em : Bool) (ic iv : Nat) {rcc rvc : List Cell}
    (upd : Table) (hwf : qb.wf) (hhelp : ∀ h ∈ helperNames, h ∉ qb.cols)
    (h1 : pyStrip qc ≠ "") (h2 : pyStrip qv ≠ "") (h3 : pyStrip rc ≠ "")
    (h4 : pyStrip rv ≠ "")
    (hrcc : getColumn ref (pyStrip rc) = some rcc)
    (hrvc : getColumn (setColumn ref "_check_key"
        (List.map Cell.str (List.map (fun v => normalize_check_number v nm em) rcc)))
        (pyStrip rv) = some rvc)
    (hic : qb.cols.findIdx? (· == pyStrip qc) = some ic)
    (hiv : qb.cols.findIdx? (· == pyStrip qv) = some iv)
    (hupd : (process_updates st (some qb) (some ref) qc qv rc rv nm em).1.updated_df
      = some upd) :
    upd.cols = qb.cols ∧
    upd.rows.length = qb.rows.length ∧
    (∀ i j : Nat, j ≠ iv →
      (upd.rows.getD i []).getD j Cell.null =
        (qb.rows.getD i []).getD j Cell.null) ∧
    (∀ (i : Nat) (r : List Cell), qb.rows[i]? = some r →
      (rowNew (buildKeyed rcc rvc nm em) ic nm em r).isNone = true →
      upd.rows[i]? = some r) := by
  rw [process_ok_closed st qb ref qc qv rc rv nm em ic iv hwf hhelp h1 h2 h3 h4
    hrcc hrvc hic hiv] at hupd
  obtain rfl := (Option.some.inj hupd).symm
  refine ⟨rfl, by simp, ?_, ?_⟩
  · intro i j hj
    show ((qb.rows.map (updRow (buildKeyed rcc rvc nm em) ic iv nm em)).getD
      i []).getD j Cell.null = (qb.rows.getD i []).getD j Cell.null
    rw [List.getD_eq_getElem?_getD
        (qb.rows.map (updRow (buildKeyed rcc rvc nm em) ic iv nm em)) i,
      List.getD_eq_getElem?_getD qb.rows i, List.getElem?_map]
    cases hri : qb.rows[i]? with
    | none => rfl
    | some r =>
      show ((updRow (buildKeyed rcc rvc nm em) ic iv nm em r)).getD j Cell.null
        = r.getD j Cell.null
      unfold updRow
      cases hn : rowNew (buildKeyed rcc rvc nm em) ic nm em r with
      | none => rfl
      | some v =>
        rw [List.getD_eq_getElem?_getD, List.getD_eq_getElem?_getD,
          List.getElem?_set_ne (fun he => hj he.symm)]
  · intro i r hri hnone
    show (qb.rows.map (updRow (buildKeyed rcc rvc nm em) ic iv nm em))[i]? = _
    rw [List.getElem?_map, hri]
    refine congrArg some ?_
    unfold updRow
    cases hn : rowNew (buildKeyed rcc rvc nm em) ic nm em r with
    | none => rfl
    | some v => rw [hn] at hnone; cases hnone

/-- Witness for C6 (amended) on the end-to-end scenario run. -/
theorem c6_witness :
    (⟨["Num", "Vendor"],
      [[Cell.str "Check 101", Cell.str "Acme Co"],
       [Cell.str "103", Cell.str "X"],
       [Cell.str "", Cell.str "Y"]]⟩ : Table).cols = ["Num", "Vendor"] ∧
    (⟨["Num", "Vendor"],
      [[Cell.str "Check 101", Cell.str "Acme Co"],
       [Cell.str "103", Cell.str "X"],
       [Cell.str "", Cell.str "Y"]]⟩ : Table).rows.length =
      (⟨["Num", "Vendor"],
        [[Cell.str "Check 101", Cell.str "Old Name"],
         [Cell.str "103", Cell.str "X"],
         [Cell.str "", Cell.str "Y"]]⟩ : Table).rows.length ∧
    (∀ i j : Nat, j ≠ 1 →
      ((⟨["Num", "Vendor"],
        [[Cell.str "Check 101", Cell.str "Acme Co"],
         [Cell.str "103", Cell.str "X"],
         [Cell.str "", Cell.str "Y"]]⟩ : Table).rows.getD i []).getD j Cell.null =
        ((⟨["Num", "Vendor"],
          [[Cell.str "Check 101", Cell.str "Old Name"],
           [Cell.str "103", Cell.str "X"],
           [Cell.str "", Cell.str "Y"]]⟩ : Table).rows.getD i []).getD j
          Cell.null) ∧
    (∀ (i : Nat) (r : List Cell),
      (⟨["Num", "Vendor"],
        [[Cell.str "Check 101", Cell.str "Old Name"],
         [Cell.str "103", Cell.str "X"],
         [Cell.str "", Cell.str "Y"]]⟩ : Table).rows[i]? = some r →
      (rowNew (buildKeyed [Cell.str "101", Cell.str "102", Cell.str "101"]
        [Cell.str "Acme Co", Cell.str "Beta LLC", Cell.str "Acme Duplicate"]
        true true) 0 true true r).isNone = true →
      (⟨["Num", "Vendor"],
        [[Cell.str "Check 101", Cell.str "Acme Co"],
         [Cell.str "103", Cell.str "X"],
         [Cell.str "", Cell.str "Y"]]⟩ : Table).rows[i]? = some r) := by
  have h := c6_frame_effect ⟨none, none, []⟩
    ⟨["Num", "Vendor"],
      [[Cell.str "Check 101", Cell.str "Old Name"],
       [Cell.str "103", Cell.str "X"],
       [Cell.str "", Cell.str "Y"]]⟩
    ⟨["RefCheck", "RefVendor"],
      [[Cell.str "101", Cell.str "Acme Co"],
       [Cell.str "102", Cell.str "Beta LLC"],
       [Cell.str "101", Cell.str "Acme Duplicate"]]⟩
    "Num" "Vendor" "RefCheck" "RefVendor" true true 0 1
    ⟨["Num", "Vendor"],
      [[Cell.str "Check 101", Cell.str "Acme Co"],
       [Cell.str "103", Cell.str "X"],
       [Cell.str "", Cell.str "Y"]]⟩
    (by unfold Table.wf; decide) (by decide) (by decide) (by decide) (by decide) (by decide)
    rfl rfl rfl rfl rfl
  exact h

/-! ### Claims about the reconciliation invariants -/

end CheckApp
